import Mathlib

/-!
Shallow embedding of the core services of the Employee-Efficiency and
Job-Card Digitization backend: the job-card Validation Engine
(backend/app/services/validation_engine.py), the Split Allocation Service
(backend/app/services/split_service.py) and the Efficiency Computation
Engine (backend/app/services/efficiency_engine.py), together with the part
of the SQLModel data model (backend/app/models/models.py) they read.

Modelling conventions:
- Python float arithmetic is embedded as exact rational arithmetic (ℚ).
  Every concrete value appearing in the verified properties is exactly
  representable, so the ℚ results coincide with the float results there.
- Database tables are lists of rows; SQL SELECT is list filtering in table
  order, and an SQL inner join yields one row per matching pair.
- SQL three-valued logic on nullable integer columns is embedded by
  optEqI / optNeI: a comparison involving NULL never matches.
- ValidationFlag.details is free text that no verified property depends
  on; the embedding omits it (flags are compared on card, type, resolved).
- WorkOrder.msd_month is the already-parsed (year, month) pair of the
  "YYYY-MM" string; the caller guarantees the format, and string equality
  of canonical "YYYY-MM" strings is equality of the pairs.
-/

/-- Calendar date (year, month, day); Python date order is lexicographic. -/
structure Date where
  year : Int
  month : Int
  day : Int
deriving DecidableEq

/-- Strict order on dates, as Python compares datetime.date values. -/
def Date.lt (a b : Date) : Prop :=
  a.year < b.year ∨
    (a.year = b.year ∧ (a.month < b.month ∨ (a.month = b.month ∧ a.day < b.day)))

instance (a b : Date) : Decidable (Date.lt a b) := by
  unfold Date.lt
  infer_instance

/-- Non-strict order on dates. -/
def Date.le (a b : Date) : Prop :=
  Date.lt a b ∨ a = b

instance (a b : Date) : Decidable (Date.le a b) := by
  unfold Date.le
  infer_instance

/-- FlagTypeEnum from models.py. -/
inductive FlagType
  | DUPLICATION
  | OUTSIDE_MSD
  | AWC
  | SPLIT_CANDIDATE
  | QTY_MISMATCH
deriving DecidableEq

/-- JobCardStatusEnum from models.py: IC = Incomplete, C = Complete. -/
inductive JobCardStatus
  | IC
  | C
deriving DecidableEq

/-- EfficiencyTypeEnum from models.py. -/
inductive EfficiencyType
  | TIME_BASED
  | QUANTITY_BASED
  | TASK_BASED
deriving DecidableEq

/-- The parsed (year, month) of a WorkOrder.msd_month "YYYY-MM" string. -/
structure MsdMonth where
  year : Int
  month : Int
deriving DecidableEq

/-- JobCard row (the fields the three core services read). -/
structure JobCard where
  id : Int
  employee_id : Option Int
  machine_id : Option Int
  work_order_id : Option Int
  activity_code_id : Option Int
  qty : ℚ
  actual_hours : ℚ
  status : JobCardStatus
  entry_date : Date
deriving DecidableEq

/-- WorkOrder row (the fields the core services read). -/
structure WorkOrder where
  id : Int
  machine_id : Int
  planned_qty : ℚ
  msd_month : MsdMonth
deriving DecidableEq

/-- ActivityCode row (the fields the core services read). -/
structure ActivityCode where
  id : Int
  efficiency_type : EfficiencyType
  std_hours_per_unit : Option ℚ
  std_qty_per_hour : Option ℚ
deriving DecidableEq

/-- ValidationFlag row; details text omitted (see header). -/
structure ValidationFlag where
  job_card_id : Int
  flag_type : FlagType
  resolved : Bool
deriving DecidableEq

/-- EfficiencyPeriod row. -/
structure EfficiencyPeriod where
  employee_id : Int
  period_start : Date
  period_end : Date
  time_efficiency : ℚ
  task_efficiency : ℚ
  quantity_efficiency : ℚ
  awc_pct : ℚ
  standard_hours_allowed : ℚ
  actual_hours : ℚ
deriving DecidableEq

/-- The payload dict returned by compute_employee_efficiency. -/
structure EfficiencySnapshot where
  employee_id : Int
  period_start : Date
  period_end : Date
  time_efficiency : ℚ
  task_efficiency : ℚ
  quantity_efficiency : ℚ
  awc_pct : ℚ
  standard_hours_allowed : ℚ
  actual_hours : ℚ
deriving DecidableEq

/-- One allocation dict returned by compute_splits_for_workorder. -/
structure Allocation where
  employee_id : Int
  actual_hours : ℚ
  credit_hours : ℚ
  credit_pct : ℚ
deriving DecidableEq

/-- The database state the services read and write. -/
structure DB where
  jobCards : List JobCard
  workOrders : List WorkOrder
  activityCodes : List ActivityCode
  flags : List ValidationFlag
  efficiencyPeriods : List EfficiencyPeriod
deriving DecidableEq

/-- SQL equality on nullable integer columns: NULL matches nothing. -/
def optEqI : Option Int → Option Int → Bool
  | some a, some b => decide (a = b)
  | _, _ => false

/-- SQL inequality on nullable integer columns: NULL matches nothing. -/
def optNeI : Option Int → Option Int → Bool
  | some a, some b => decide (a ≠ b)
  | _, _ => false

/-- The select(WorkOrder).where(WorkOrder.id == jobcard.work_order_id)
followed by scalar_one_or_none, used by three of the validation rules. -/
def DB.findWorkOrder (db : DB) (oid : Option Int) : Option WorkOrder :=
  match oid with
  | none => none
  | some i => db.workOrders.find? (fun w => decide (w.id = i))

/-- ValidationFlag construction: every rule emits flags with resolved=False. -/
def mkFlag (job_card_id : Int) (t : FlagType) : ValidationFlag :=
  ⟨job_card_id, t, false⟩

/-- Start of the MSD window: date(y, m, 1) - relativedelta(months=1),
then day 25 — i.e. the 25th of the previous month. -/
def windowStart (m : MsdMonth) : Date :=
  if m.month = 1 then ⟨m.year - 1, 12, 25⟩ else ⟨m.year, m.month - 1, 25⟩

/-- End of the MSD window: the 10th of the MSD month. -/
def windowEnd (m : MsdMonth) : Date :=
  ⟨m.year, m.month, 10⟩

/-- Rule 1 (msd_window_rule): flag OUTSIDE_MSD when entry_date is strictly
outside the inclusive window [windowStart, windowEnd]. -/
def msd_window_rule (db : DB) (jc : JobCard) : List ValidationFlag :=
  match db.findWorkOrder jc.work_order_id with
  | none => []
  | some wo =>
    if Date.lt jc.entry_date (windowStart wo.msd_month) ∨
        Date.lt (windowEnd wo.msd_month) jc.entry_date then
      [mkFlag jc.id FlagType.OUTSIDE_MSD]
    else
      []

/-- Rule 2 (duplication_rule): other job cards in the same MSD month with
the same (machine_id, work_order_id, activity_code_id). -/
def duplication_rule (db : DB) (jc : JobCard) : List ValidationFlag :=
  match db.findWorkOrder jc.work_order_id with
  | none => []
  | some wo =>
    let wo_ids_in_month :=
      (db.workOrders.filter (fun w => decide (w.msd_month = wo.msd_month))).map
        (fun w => w.id)
    let duplicates := db.jobCards.filter (fun o =>
      decide (o.id ≠ jc.id) &&
      (match o.work_order_id with
       | some i => decide (i ∈ wo_ids_in_month)
       | none => false) &&
      optEqI o.machine_id jc.machine_id &&
      optEqI o.work_order_id jc.work_order_id &&
      optEqI o.activity_code_id jc.activity_code_id)
    if duplicates.isEmpty then [] else [mkFlag jc.id FlagType.DUPLICATION]

/-- Rule 3 (awc_rule): flag AWC when activity_code_id is None. -/
def awc_rule (_db : DB) (jc : JobCard) : List ValidationFlag :=
  match jc.activity_code_id with
  | none => [mkFlag jc.id FlagType.AWC]
  | some _ => []

/-- The select inside split_candidate_rule: Complete job cards on the same
(work_order_id, activity_code_id) by a different employee. -/
def split_matches (db : DB) (jc : JobCard) : List JobCard :=
  db.jobCards.filter (fun o =>
    decide (o.id ≠ jc.id) &&
    optEqI o.work_order_id jc.work_order_id &&
    optEqI o.activity_code_id jc.activity_code_id &&
    decide (o.status = JobCardStatus.C) &&
    optNeI o.employee_id jc.employee_id)

/-- Rule 4 (split_candidate_rule): when the card is Incomplete and some
Complete sibling by another employee exists, one flag on the current card
plus one flag per matched card. -/
def split_candidate_rule (db : DB) (jc : JobCard) : List ValidationFlag :=
  if jc.status ≠ JobCardStatus.IC then
    []
  else
    let completed_by_others := split_matches db jc
    if completed_by_others.isEmpty then
      []
    else
      mkFlag jc.id FlagType.SPLIT_CANDIDATE ::
        completed_by_others.map (fun o => mkFlag o.id FlagType.SPLIT_CANDIDATE)

/-- Rule 5 (qty_mismatch_rule): card qty above planned, and total qty
across the work order above planned * 1.1, each emit a QTY_MISMATCH. -/
def qty_mismatch_rule (db : DB) (jc : JobCard) : List ValidationFlag :=
  match db.findWorkOrder jc.work_order_id with
  | none => []
  | some wo =>
    let f1 :=
      if wo.planned_qty < jc.qty then [mkFlag jc.id FlagType.QTY_MISMATCH] else []
    let all_job_cards := db.jobCards.filter (fun o => optEqI o.work_order_id jc.work_order_id)
    let total_qty := (all_job_cards.map (fun o => o.qty)).sum
    let tolerance := wo.planned_qty * (11 / 10)
    let f2 :=
      if tolerance < total_qty then [mkFlag jc.id FlagType.QTY_MISMATCH] else []
    f1 ++ f2

/-- The concatenation of the five rules in registration order, as
ValidationEngine.run_for_jobcard accumulates all_flags. -/
def all_rule_flags (db : DB) (jc : JobCard) : List ValidationFlag :=
  msd_window_rule db jc ++ duplication_rule db jc ++ awc_rule db jc ++
    split_candidate_rule db jc ++ qty_mismatch_rule db jc

/-- ValidationEngine._clear_existing_flags: delete the unresolved flags of
the given card, leaving everything else. -/
def clear_existing_flags (flags : List ValidationFlag) (job_card_id : Int) :
    List ValidationFlag :=
  flags.filter (fun f => !(decide (f.job_card_id = job_card_id) && !f.resolved))

/-- ValidationEngine.run_for_jobcard: run all rules, clear the card's
unresolved flags, insert the newly computed flags, commit; returns the
computed flags and the new database state. -/
def run_for_jobcard (db : DB) (jc : JobCard) : List ValidationFlag × DB :=
  let all_flags := all_rule_flags db jc
  (all_flags, { db with flags := clear_existing_flags db.flags jc.id ++ all_flags })

/-- The unresolved flags currently stored for one job card. -/
def DB.unresolvedFlagsFor (db : DB) (job_card_id : Int) : List ValidationFlag :=
  db.flags.filter (fun f => decide (f.job_card_id = job_card_id) && !f.resolved)

/-- Python round(x, d) under exact decimal arithmetic: round half to even.
All rounded values in the verified properties are exactly representable,
where binary-float round coincides with the exact decimal one. -/
def roundHalfEven (x : ℚ) : ℤ :=
  if x - ⌊x⌋ < 1 / 2 then ⌊x⌋
  else if 1 / 2 < x - ⌊x⌋ then ⌊x⌋ + 1
  else if ⌊x⌋ % 2 = 0 then ⌊x⌋ else ⌊x⌋ + 1

/-- Python round(x, d): round x to d decimal places, ties to even. -/
def pyRound (d : ℕ) (x : ℚ) : ℚ :=
  (roundHalfEven (x * 10 ^ d) : ℚ) / 10 ^ d

/-- Accumulator loop of firstOccur: append keys not seen yet. -/
def firstOccurGo (acc : List Int) : List Int → List Int
  | [] => acc
  | x :: xs =>
    if x ∈ acc then firstOccurGo acc xs else firstOccurGo (acc ++ [x]) xs

/-- First occurrences of a list of keys, in order — the key order of a
Python dict filled by insertion. -/
def firstOccur (l : List Int) : List Int :=
  firstOccurGo [] l

/-- The unresolved SPLIT_CANDIDATE flags of one job card. -/
def jc_unresolved_split_flags (db : DB) (jc : JobCard) : List ValidationFlag :=
  db.flags.filter (fun f =>
    decide (f.job_card_id = jc.id) &&
    decide (f.flag_type = FlagType.SPLIT_CANDIDATE) &&
    !f.resolved)

/-- The select(JobCard).join(ValidationFlag).where(...) at the top of
compute_splits_for_workorder. The SQL inner join produces one JobCard row
per matching flag row, and scalars().all() does not deduplicate entities,
so a card appears once per unresolved SPLIT_CANDIDATE flag it carries. -/
def flagged_jobcards (db : DB) (work_order_id : Int) : List JobCard :=
  db.jobCards.flatMap (fun jc =>
    if optEqI jc.work_order_id (some work_order_id) then
      (jc_unresolved_split_flags db jc).map (fun _ => jc)
    else [])

/-- Lookup of one ActivityCode by id (the activities dict). -/
def getActivity (db : DB) (a : Int) : Option ActivityCode :=
  db.activityCodes.find? (fun ac => decide (ac.id = a))

/-- Keys of the defaultdict grouping by activity_code_id, in insertion
order (cards with activity_code_id None are discarded). -/
def activity_keys (db : DB) (work_order_id : Int) : List Int :=
  firstOccur ((flagged_jobcards db work_order_id).filterMap (fun jc => jc.activity_code_id))

/-- The group of flagged job cards sharing one activity_code_id. -/
def groupOf (db : DB) (work_order_id : Int) (a : Int) : List JobCard :=
  (flagged_jobcards db work_order_id).filter (fun jc => decide (jc.activity_code_id = some a))

/-- total_actual of one group: sum of actual_hours. -/
def total_actual (g : List JobCard) : ℚ :=
  (g.map (fun jc => jc.actual_hours)).sum

/-- std_per_unit for one activity id: std_hours_per_unit, None as 0,
missing activity as 0. -/
def std_per_unit (db : DB) (a : Int) : ℚ :=
  match getActivity db a with
  | some ac => ac.std_hours_per_unit.getD 0
  | none => 0

/-- total_std of one group: sum of qty * std_per_unit. -/
def total_std (db : DB) (g : List JobCard) (a : Int) : ℚ :=
  (g.map (fun jc => jc.qty * std_per_unit db a)).sum

/-- The cards of the non-skipped groups in iteration order; a group is
skipped when its total_actual <= 0. -/
def processed_cards (db : DB) (work_order_id : Int) : List JobCard :=
  (activity_keys db work_order_id).flatMap (fun a =>
    if 0 < total_actual (groupOf db work_order_id a) then groupOf db work_order_id a
    else [])

/-- The credit one processed card contributes:
total_std * (actual_hours / total_actual) of its group. -/
def cardCredit (db : DB) (work_order_id : Int) (jc : JobCard) : ℚ :=
  match jc.activity_code_id with
  | some a =>
    total_std db (groupOf db work_order_id a) a *
      (jc.actual_hours / total_actual (groupOf db work_order_id a))
  | none => 0

/-- employee_actual_sum dict entry for one employee. -/
def employee_actual_sum (db : DB) (work_order_id : Int) (e : Int) : ℚ :=
  (((processed_cards db work_order_id).filter
      (fun jc => decide (jc.employee_id = some e))).map (fun jc => jc.actual_hours)).sum

/-- employee_credit_sum dict entry for one employee. -/
def employee_credit_sum (db : DB) (work_order_id : Int) (e : Int) : ℚ :=
  (((processed_cards db work_order_id).filter
      (fun jc => decide (jc.employee_id = some e))).map (cardCredit db work_order_id)).sum

/-- Keys of the employee accumulation dicts, in insertion order (cards with
employee_id None are skipped in the accumulation loop). -/
def employee_ids (db : DB) (work_order_id : Int) : List Int :=
  firstOccur ((processed_cards db work_order_id).filterMap (fun jc => jc.employee_id))

/-- grand_total_actual = sum(employee_actual_sum.values()) or 1.0. -/
def grand_total_actual (db : DB) (work_order_id : Int) : ℚ :=
  let s := ((employee_ids db work_order_id).map (employee_actual_sum db work_order_id)).sum
  if s = 0 then 1 else s

/-- The allocation dicts in employee-dict order, before the final sort. -/
def allocations_unsorted (db : DB) (work_order_id : Int) : List Allocation :=
  (employee_ids db work_order_id).map (fun e =>
    { employee_id := e
      actual_hours := pyRound 4 (employee_actual_sum db work_order_id e)
      credit_hours := pyRound 4 (employee_credit_sum db work_order_id e)
      credit_pct :=
        pyRound 6
          (if grand_total_actual db work_order_id ≠ 0 then
            employee_actual_sum db work_order_id e / grand_total_actual db work_order_id
          else 0) })

/-- compute_splits_for_workorder: empty when no flagged job cards,
otherwise the allocations sorted by credit_hours descending (stable). -/
def compute_splits_for_workorder (db : DB) (work_order_id : Int) : List Allocation :=
  if flagged_jobcards db work_order_id = [] then []
  else
    (allocations_unsorted db work_order_id).mergeSort
      (fun x y => decide (y.credit_hours ≤ x.credit_hours))

/-- EPS = 1e-6 from efficiency_engine.py. -/
def EPS : ℚ := 1 / 1000000

/-- _fetch_employee_jobcards: the employee's job cards with entry_date in
the inclusive range, left-joined to their ActivityCode. -/
def fetch_employee_jobcards (db : DB) (employee_id : Int) (ps pe : Date) :
    List (JobCard × Option ActivityCode) :=
  (db.jobCards.filter (fun jc =>
      optEqI jc.employee_id (some employee_id) &&
      decide (Date.le ps jc.entry_date) &&
      decide (Date.le jc.entry_date pe))).map
    (fun jc =>
      (jc,
        match jc.activity_code_id with
        | none => none
        | some i => db.activityCodes.find? (fun ac => decide (ac.id = i))))

/-- A row lands in the AWC branch of the accumulation loop when
activity_code_id is None or the joined ActivityCode is None. -/
def isAwcRow (r : JobCard × Option ActivityCode) : Bool :=
  r.1.activity_code_id.isNone || r.2.isNone

/-- productive_hours accumulator. -/
def productive_hours (rows : List (JobCard × Option ActivityCode)) : ℚ :=
  ((rows.filter (fun r => !isAwcRow r)).map (fun r => r.1.actual_hours)).sum

/-- awc_hours accumulator. -/
def awc_hours (rows : List (JobCard × Option ActivityCode)) : ℚ :=
  ((rows.filter isAwcRow).map (fun r => r.1.actual_hours)).sum

/-- std_h of one non-AWC row: (std_hours_per_unit or 0) * qty. -/
def rowStdHours (r : JobCard × Option ActivityCode) : ℚ :=
  (match r.2 with
   | some a => a.std_hours_per_unit.getD 0
   | none => 0) * r.1.qty

/-- standard_hours_allowed accumulator. -/
def standard_hours_allowed (rows : List (JobCard × Option ActivityCode)) : ℚ :=
  ((rows.filter (fun r => !isAwcRow r)).map rowStdHours).sum

/-- A non-AWC row whose activity is TASK_BASED. -/
def isTaskRow (r : JobCard × Option ActivityCode) : Bool :=
  !isAwcRow r &&
    (match r.2 with
     | some a => decide (a.efficiency_type = EfficiencyType.TASK_BASED)
     | none => false)

/-- tasks_completed accumulator. -/
def tasks_completed (rows : List (JobCard × Option ActivityCode)) : ℕ :=
  (rows.filter isTaskRow).length

/-- A non-AWC row whose activity is QUANTITY_BASED. -/
def isQtyRow (r : JobCard × Option ActivityCode) : Bool :=
  !isAwcRow r &&
    (match r.2 with
     | some a => decide (a.efficiency_type = EfficiencyType.QUANTITY_BASED)
     | none => false)

/-- The per-card quantity ratio:
qty / max((std_qty_per_hour or 0) * max(hours, 0), EPS). -/
def qtyRatio (r : JobCard × Option ActivityCode) : ℚ :=
  r.1.qty /
    max ((match r.2 with
          | some a => a.std_qty_per_hour.getD 0
          | none => 0) * max r.1.actual_hours 0) EPS

/-- qty_eff_sum accumulator: sum of the per-card quantity ratios. -/
def qty_eff_sum (rows : List (JobCard × Option ActivityCode)) : ℚ :=
  ((rows.filter isQtyRow).map qtyRatio).sum

/-- qty_eff_count accumulator. -/
def qty_eff_count (rows : List (JobCard × Option ActivityCode)) : ℕ :=
  (rows.filter isQtyRow).length

/-- tasks_planned fallback: max(tasks_completed, 1). -/
def tasks_planned (rows : List (JobCard × Option ActivityCode)) : ℕ :=
  max (tasks_completed rows) 1

/-- time_efficiency = standard_hours_allowed / max(productive_hours, EPS) * 100. -/
def time_efficiency (rows : List (JobCard × Option ActivityCode)) : ℚ :=
  standard_hours_allowed rows / max (productive_hours rows) EPS * 100

/-- task_efficiency = tasks_completed / max(tasks_planned, 1) * 100. -/
def task_efficiency (rows : List (JobCard × Option ActivityCode)) : ℚ :=
  (tasks_completed rows : ℚ) / (max (tasks_planned rows) 1 : ℕ) * 100

/-- quantity_efficiency = qty_eff_sum / max(qty_eff_count, 1) * 100. -/
def quantity_efficiency (rows : List (JobCard × Option ActivityCode)) : ℚ :=
  qty_eff_sum rows / (max (qty_eff_count rows) 1 : ℕ) * 100

/-- total_hours = productive_hours + awc_hours. -/
def total_hours (rows : List (JobCard × Option ActivityCode)) : ℚ :=
  productive_hours rows + awc_hours rows

/-- awc_pct = awc_hours / max(total_hours, EPS) if total_hours > 0 else 0. -/
def awc_pct (rows : List (JobCard × Option ActivityCode)) : ℚ :=
  if 0 < total_hours rows then awc_hours rows / max (total_hours rows) EPS else 0

/-- The individual payload dict of compute_employee_efficiency, with the
documented rounding (efficiencies and hour sums to 2 decimals, awc_pct
to 4 decimals). -/
def individual_snapshot (db : DB) (employee_id : Int) (ps pe : Date) :
    EfficiencySnapshot :=
  let rows := fetch_employee_jobcards db employee_id ps pe
  { employee_id := employee_id
    period_start := ps
    period_end := pe
    time_efficiency := pyRound 2 (time_efficiency rows)
    task_efficiency := pyRound 2 (task_efficiency rows)
    quantity_efficiency := pyRound 2 (quantity_efficiency rows)
    awc_pct := pyRound 4 (awc_pct rows)
    standard_hours_allowed := pyRound 2 (standard_hours_allowed rows)
    actual_hours := pyRound 2 (productive_hours rows) }

/-- The key predicate of the EfficiencyPeriod upsert select. -/
def periodKeyMatch (employee_id : Int) (ps pe : Date) (r : EfficiencyPeriod) : Bool :=
  decide (r.employee_id = employee_id) &&
    decide (r.period_start = ps) && decide (r.period_end = pe)

/-- In-place update of an existing EfficiencyPeriod row from the payload. -/
def updateRow (r : EfficiencyPeriod) (data : EfficiencySnapshot) : EfficiencyPeriod :=
  { r with
    time_efficiency := data.time_efficiency
    task_efficiency := data.task_efficiency
    quantity_efficiency := data.quantity_efficiency
    awc_pct := data.awc_pct
    standard_hours_allowed := data.standard_hours_allowed
    actual_hours := data.actual_hours }

/-- A freshly inserted EfficiencyPeriod row built from the payload. -/
def newRow (employee_id : Int) (ps pe : Date) (data : EfficiencySnapshot) :
    EfficiencyPeriod :=
  { employee_id := employee_id
    period_start := ps
    period_end := pe
    time_efficiency := data.time_efficiency
    task_efficiency := data.task_efficiency
    quantity_efficiency := data.quantity_efficiency
    awc_pct := data.awc_pct
    standard_hours_allowed := data.standard_hours_allowed
    actual_hours := data.actual_hours }

/-- The table after the existing-records branch: the first key-matching row
is updated in place, every later key-matching row is deleted, all other
rows are untouched. -/
def upsertGo (isKey : EfficiencyPeriod → Bool) (data : EfficiencySnapshot) :
    List EfficiencyPeriod → List EfficiencyPeriod
  | [] => []
  | r :: rs =>
    if isKey r then updateRow r data :: rs.filter (fun x => !isKey x)
    else r :: upsertGo isKey data rs

/-- _upsert_efficiency_period: select the rows of the key; if any exist
keep only the first (deleting duplicates) and update it, else insert. -/
def upsert_efficiency_period (table : List EfficiencyPeriod) (employee_id : Int)
    (ps pe : Date) (data : EfficiencySnapshot) : List EfficiencyPeriod :=
  if table.any (periodKeyMatch employee_id ps pe) then
    upsertGo (periodKeyMatch employee_id ps pe) data table
  else
    table ++ [newRow employee_id ps pe data]

/-- compute_employee_efficiency: build the individual payload, leave
team_metrics at None (the source hardcodes it), return the payload and
upsert it into EfficiencyPeriod. -/
def compute_employee_efficiency (db : DB) (employee_id : Int) (ps pe : Date) :
    EfficiencySnapshot × DB :=
  let team_metrics : Option EfficiencySnapshot := none
  let payload := team_metrics.getD (individual_snapshot db employee_id ps pe)
  (payload,
    { db with
      efficiencyPeriods :=
        upsert_efficiency_period db.efficiencyPeriods employee_id ps pe payload })

/-! Concrete scenarios used by the verified properties. -/

/-- A Complete job card (id 1) on work order 1, activity 10, machine 1. -/
def cardX : JobCard :=
  ⟨1, some 1, some 1, some 1, some 10, 1, 1, JobCardStatus.C, ⟨2024, 11, 1⟩⟩

/-- An Incomplete sibling card (id 2) by another employee on another
machine, same work order and activity. -/
def cardY : JobCard :=
  ⟨2, some 2, some 2, some 1, some 10, 1, 1, JobCardStatus.IC, ⟨2024, 11, 1⟩⟩

/-- Work order 1 with msd_month 2024-11 and a generous planned_qty. -/
def woC1 : WorkOrder := ⟨1, 1, 100, ⟨2024, 11⟩⟩

/-- Database with the two sibling cards and no flags yet. -/
def dbC1 : DB := ⟨[cardX, cardY], [woC1], [], [], []⟩

/-- An Incomplete card (id 1) on work order 1, activity 10. -/
def cardIC : JobCard :=
  ⟨1, some 1, none, some 1, some 10, 0, 1, JobCardStatus.IC, ⟨2024, 11, 1⟩⟩

/-- A Complete card (id 2) by employee 2, same work order and activity. -/
def cardC2 : JobCard :=
  ⟨2, some 2, none, some 1, some 10, 0, 1, JobCardStatus.C, ⟨2024, 11, 1⟩⟩

/-- A Complete card (id 3) by employee 3, same work order and activity. -/
def cardC3 : JobCard :=
  ⟨3, some 3, none, some 1, some 10, 0, 1, JobCardStatus.C, ⟨2024, 11, 1⟩⟩

/-- Database where the Incomplete card has two Complete matches. -/
def dbC2 : DB := ⟨[cardIC, cardC2, cardC3], [], [], [], []⟩

/-- Activity 30 with std_hours_per_unit 0.5. -/
def actC3 : ActivityCode := ⟨30, EfficiencyType.TIME_BASED, some (1 / 2), none⟩

/-- Split card A: qty 10, 5 actual hours, employee 1. -/
def cardA : JobCard :=
  ⟨1, some 1, some 1, some 7, some 30, 10, 5, JobCardStatus.IC, ⟨2024, 11, 1⟩⟩

/-- Split card B: qty 20, 15 actual hours, employee 2. -/
def cardB : JobCard :=
  ⟨2, some 2, some 1, some 7, some 30, 20, 15, JobCardStatus.C, ⟨2024, 11, 1⟩⟩

/-- Work order 7 with both cards flagged SPLIT_CANDIDATE, one group. -/
def dbC3 : DB :=
  ⟨[cardA, cardB], [], [actC3],
    [⟨1, FlagType.SPLIT_CANDIDATE, false⟩, ⟨2, FlagType.SPLIT_CANDIDATE, false⟩], []⟩

/-- Activity 40, QUANTITY_BASED with std_qty_per_hour 10. -/
def actC4 : ActivityCode := ⟨40, EfficiencyType.QUANTITY_BASED, none, some 10⟩

/-- A quantity-based card: qty 30, 2 actual hours. -/
def cardQ : JobCard :=
  ⟨1, some 1, none, none, some 40, 30, 2, JobCardStatus.C, ⟨2024, 11, 1⟩⟩

/-- Database for the quantity-efficiency example. -/
def dbC4 : DB := ⟨[cardQ], [], [actC4], [], []⟩

/-- The joined row of the quantity-based card. -/
def rowQ : JobCard × Option ActivityCode := (cardQ, some actC4)

/-- Work order 1 with msd_month 2024-11 for the window boundary checks. -/
def woC5 : WorkOrder := ⟨1, 1, 100, ⟨2024, 11⟩⟩

/-- A card on work order 1 entered at the given date. -/
def mkEntryCard (d : Date) : JobCard :=
  ⟨1, some 1, some 1, some 1, some 10, 0, 1, JobCardStatus.C, d⟩

/-- Database holding only the work order of the boundary checks. -/
def dbC5 : DB := ⟨[], [woC5], [], [], []⟩

/-- A card with 8 hours and no activity code: zero productive hours. -/
def cardAwc : JobCard :=
  ⟨1, some 1, none, none, none, 0, 8, JobCardStatus.C, ⟨2024, 11, 1⟩⟩

/-- Database of the zero-productive-hours scenario. -/
def dbC8 : DB := ⟨[cardAwc], [], [], [], []⟩

/-- An Incomplete card (id 1) on work order 7, activity 30, with the given
hours and quantity. -/
def c9Card (hrs q : ℚ) : JobCard :=
  ⟨1, some 1, none, some 7, some 30, q, hrs, JobCardStatus.IC, ⟨2024, 11, 1⟩⟩

/-- Activity 30 with the given std_hours_per_unit. -/
def c9Act (std : ℚ) : ActivityCode := ⟨30, EfficiencyType.TIME_BASED, some std, none⟩

/-- Database whose single card carries k unresolved SPLIT_CANDIDATE flags. -/
def c9DB (k : ℕ) (hrs q std : ℚ) : DB :=
  ⟨[c9Card hrs q], [], [c9Act std],
    List.replicate k ⟨1, FlagType.SPLIT_CANDIDATE, false⟩, []⟩

/-! General helper lemmas. -/

/-- Lexicographic date order is total: lt is the negation of reverse le. -/
theorem date_lt_iff_not_le (a b : Date) : Date.lt a b ↔ ¬ Date.le b a := by
  obtain ⟨y1, m1, d1⟩ := a
  obtain ⟨y2, m2, d2⟩ := b
  simp only [Date.lt, Date.le, Date.mk.injEq]
  omega

/-- roundHalfEven is the identity on integers. -/
theorem roundHalfEven_intCast (n : ℤ) : roundHalfEven (n : ℚ) = n := by
  unfold roundHalfEven
  rw [Int.floor_intCast]
  norm_num

/-- pyRound d is the identity on rationals with at most d decimals. -/
theorem pyRound_of_mul_eq (d : ℕ) (x : ℚ) (n : ℤ) (h : x * 10 ^ d = (n : ℚ)) :
    pyRound d x = x := by
  unfold pyRound
  rw [h, roundHalfEven_intCast, ← h, mul_div_assoc,
    div_self (pow_ne_zero d (by norm_num : (10 : ℚ) ≠ 0)), mul_one]

/-- Filtering by p after keeping only the rows violating p gives nothing. -/
theorem filter_not_not {α : Type} (p : α → Bool) (l : List α) :
    (l.filter fun a => !(p a)).filter p = [] := by
  rw [List.filter_filter]
  simp

/-- filterMap over a replicate of a value mapped to some b. -/
theorem filterMap_replicate_of_some {α β : Type} (f : α → Option β) (x : α) (b : β)
    (h : f x = some b) (k : ℕ) :
    (List.replicate k x).filterMap f = List.replicate k b := by
  induction k with
  | zero => simp
  | succ n ih => simp [List.replicate_succ, List.filterMap_cons, h, ih]

/-- The firstOccur loop ignores keys already collected. -/
theorem firstOccurGo_replicate_mem (acc : List Int) (x : Int) (h : x ∈ acc)
    (n : ℕ) : firstOccurGo acc (List.replicate n x) = acc := by
  induction n with
  | zero => rfl
  | succ m ih => simp [List.replicate_succ, firstOccurGo, h, ih]

/-- firstOccur collapses a nonempty constant list to its single key. -/
theorem firstOccur_replicate (k : ℕ) (x : Int) (hk : 0 < k) :
    firstOccur (List.replicate k x) = [x] := by
  obtain ⟨n, rfl⟩ : ∃ n, k = n + 1 := ⟨k - 1, by omega⟩
  rw [firstOccur, List.replicate_succ]
  simp only [firstOccurGo, List.not_mem_nil, if_false, List.nil_append]
  exact firstOccurGo_replicate_mem [x] x (by simp) n

/-- filterMap of a function constantly some b is a constant map. -/
theorem filterMap_const_some {α β : Type} (l : List α) (f : α → Option β) (b : β)
    (h : ∀ x ∈ l, f x = some b) :
    l.filterMap f = List.replicate l.length b := by
  induction l with
  | nil => rfl
  | cons x xs ih =>
    rw [List.filterMap_cons, h x (List.mem_cons_self x xs)]
    rw [List.length_cons, List.replicate_succ]
    rw [ih (fun y hy => h y (List.mem_cons_of_mem x hy))]

/-- The updated row keeps the key fields of the row it replaces. -/
theorem periodKeyMatch_updateRow (employee_id : Int) (ps pe : Date)
    (r : EfficiencyPeriod) (data : EfficiencySnapshot) :
    periodKeyMatch employee_id ps pe (updateRow r data) =
      periodKeyMatch employee_id ps pe r := rfl

/-- A freshly inserted row matches its own key. -/
theorem periodKeyMatch_newRow (employee_id : Int) (ps pe : Date)
    (data : EfficiencySnapshot) :
    periodKeyMatch employee_id ps pe (newRow employee_id ps pe data) = true := by
  simp [periodKeyMatch, newRow]

/-- After upsertGo on a table containing the key, exactly one key row is left. -/
theorem upsertGo_filter_key_length (isKey : EfficiencyPeriod → Bool)
    (data : EfficiencySnapshot) (hupd : ∀ r, isKey (updateRow r data) = isKey r)
    (l : List EfficiencyPeriod) (h : l.any isKey = true) :
    ((upsertGo isKey data l).filter isKey).length = 1 := by
  induction l with
  | nil => simp at h
  | cons r rs ih =>
    by_cases hr : isKey r = true
    · simp only [upsertGo, hr, if_true, List.filter_cons, hupd r]
      rw [List.filter_filter]
      simp [hr]
    · simp only [List.any_cons, hr, Bool.false_or] at h
      simp [upsertGo, hr, ih h]

/-- upsertGo leaves the rows of every other key untouched. -/
theorem upsertGo_filter_nonkey (isKey : EfficiencyPeriod → Bool)
    (data : EfficiencySnapshot) (hupd : ∀ r, isKey (updateRow r data) = isKey r)
    (l : List EfficiencyPeriod) :
    (upsertGo isKey data l).filter (fun x => !isKey x) =
      l.filter (fun x => !isKey x) := by
  induction l with
  | nil => rfl
  | cons r rs ih =>
    by_cases hr : isKey r = true
    · simp only [upsertGo, hr, if_true, List.filter_cons, hupd r]
      rw [List.filter_filter]
      simp [hr]
    · simp [upsertGo, hr, ih]

/-- Every flag emitted by the five rules is created with resolved = False. -/
theorem all_rule_flags_unresolved (db : DB) (jc : JobCard) :
    ∀ f ∈ all_rule_flags db jc, f.resolved = false := by
  intro f hf
  simp only [all_rule_flags, List.mem_append] at hf
  rcases hf with ((((h | h) | h) | h) | h)
  · unfold msd_window_rule at h
    split at h
    · simp at h
    · split at h
      · simp at h
        subst h
        rfl
      · simp at h
  · unfold duplication_rule at h
    split at h
    · simp at h
    · dsimp only at h
      split at h
      · simp at h
      · simp at h
        subst h
        rfl
  · unfold awc_rule at h
    split at h
    · simp at h
      subst h
      rfl
    · simp at h
  · unfold split_candidate_rule at h
    split at h
    · simp at h
    · dsimp only at h
      split at h
      · simp at h
      · rcases List.mem_cons.mp h with h1 | h1
        · subst h1
          rfl
        · obtain ⟨o, -, rfl⟩ := List.mem_map.mp h1
          rfl
  · unfold qty_mismatch_rule at h
    split at h
    · simp at h
    · simp only [List.mem_append] at h
      rcases h with h | h
      · split at h
        · simp at h
          subst h
          rfl
        · simp at h
      · split at h
        · simp at h
          subst h
          rfl
        · simp at h

/-! Claim theorems. -/

/-- C1 (amended): immediately after a Validation Engine run for a card,
the unresolved flags stored for that card are exactly the flags the run
produced for that card — replace, not merge. The claim's further clause,
that this persists across later runs on sibling cards, fails: a sibling
run appends SPLIT_CANDIDATE flags to this card without clearing it, as
the separate counterexample shows. -/
theorem c1_unresolved_replaced (db : DB) (jc : JobCard) :
    ((run_for_jobcard db jc).2).unresolvedFlagsFor jc.id =
      (run_for_jobcard db jc).1.filter (fun f => decide (f.job_card_id = jc.id)) := by
  show (clear_existing_flags db.flags jc.id ++ all_rule_flags db jc).filter
      (fun f => decide (f.job_card_id = jc.id) && !f.resolved) =
    (all_rule_flags db jc).filter (fun f => decide (f.job_card_id = jc.id))
  rw [List.filter_append]
  have h1 : (clear_existing_flags db.flags jc.id).filter
      (fun f => decide (f.job_card_id = jc.id) && !f.resolved) = [] := by
    unfold clear_existing_flags
    exact filter_not_not _ _
  rw [h1, List.nil_append]
  apply List.filter_congr
  intro f hf
  rw [all_rule_flags_unresolved db jc f hf]
  simp

set_option maxHeartbeats 2000000 in
/-- C1 counterexample: the most recent run for card 1 (on dbC1) produced
no flags for card 1, yet after a later run on sibling card 2 the stored
unresolved flag set of card 1 is the appended SPLIT_CANDIDATE flag, not
the empty output of card 1's own most recent run. -/
theorem c1_counterexample :
    (run_for_jobcard dbC1 cardX).1.filter
        (fun f => decide (f.job_card_id = cardX.id)) = [] ∧
    (run_for_jobcard (run_for_jobcard dbC1 cardX).2 cardY).2.unresolvedFlagsFor
        cardX.id = [mkFlag 1 FlagType.SPLIT_CANDIDATE] := by
  constructor
  · norm_num [run_for_jobcard, all_rule_flags, msd_window_rule, duplication_rule,
      awc_rule, split_candidate_rule, qty_mismatch_rule, split_matches,
      DB.findWorkOrder, dbC1, cardX, cardY, woC1, optEqI, optNeI,
      windowStart, windowEnd, Date.lt, mkFlag]
    intro a h1
    exact absurd h1 (by decide)
  · norm_num [run_for_jobcard, all_rule_flags, msd_window_rule, duplication_rule,
      awc_rule, split_candidate_rule, qty_mismatch_rule, split_matches,
      DB.findWorkOrder, dbC1, cardX, cardY, woC1, optEqI, optNeI,
      windowStart, windowEnd, Date.lt, mkFlag, clear_existing_flags,
      DB.unresolvedFlagsFor]
    intro a h1
    exact absurd h1 (by decide)

/-- C2 (amended): a Complete card yields no flags from the split-candidate
rule; an Incomplete card with a nonempty match set yields one
SPLIT_CANDIDATE flag on the current card plus one per matched card — N + 1
flags in total for N matches, not 2·N. -/
theorem c2_split_flag_count (db : DB) (jc : JobCard) :
    (jc.status = JobCardStatus.C → split_candidate_rule db jc = []) ∧
    (jc.status = JobCardStatus.IC → split_matches db jc ≠ [] →
      split_candidate_rule db jc =
        mkFlag jc.id FlagType.SPLIT_CANDIDATE ::
          (split_matches db jc).map (fun o => mkFlag o.id FlagType.SPLIT_CANDIDATE) ∧
      (split_candidate_rule db jc).length = (split_matches db jc).length + 1) := by
  constructor
  · intro hC
    simp [split_candidate_rule, hC]
  · intro hic hne
    have hrule : split_candidate_rule db jc =
        mkFlag jc.id FlagType.SPLIT_CANDIDATE ::
          (split_matches db jc).map (fun o => mkFlag o.id FlagType.SPLIT_CANDIDATE) := by
      simp [split_candidate_rule, hic, List.isEmpty_iff, hne]
    refine ⟨hrule, ?_⟩
    rw [hrule]
    simp

/-- C2 witness: on dbC2 the Incomplete card has matches and the rule
output length is the match count plus one. -/
theorem c2_split_flag_count_witness :
    cardIC.status = JobCardStatus.IC ∧ split_matches dbC2 cardIC ≠ [] ∧
    (split_candidate_rule dbC2 cardIC).length = (split_matches dbC2 cardIC).length + 1 :=
  ⟨rfl, by decide, ((c2_split_flag_count dbC2 cardIC).2 rfl (by decide)).2⟩

/-- C2 counterexample: on dbC2 the Incomplete card has N = 2 Complete
matches by other employees, and the rule emits 3 flags, not 2·N = 4. -/
theorem c2_counterexample :
    cardIC.status = JobCardStatus.IC ∧
    (split_matches dbC2 cardIC).length = 2 ∧
    (split_candidate_rule dbC2 cardIC).length = 3 ∧
    (split_candidate_rule dbC2 cardIC).length ≠
      2 * (split_matches dbC2 cardIC).length := by
  refine ⟨rfl, by decide, by decide, by decide⟩

/-- C5: whenever the card's work order is found, the MSD rule emits an
OUTSIDE_MSD flag exactly when the entry date lies strictly outside the
inclusive window [windowStart, windowEnd] — the 25th of the month before
the MSD month through the 10th of the MSD month. -/
theorem c5_msd_window (db : DB) (jc : JobCard) (wo : WorkOrder)
    (hwo : db.findWorkOrder jc.work_order_id = some wo) :
    msd_window_rule db jc =
      if ¬ (Date.le (windowStart wo.msd_month) jc.entry_date ∧
            Date.le jc.entry_date (windowEnd wo.msd_month)) then
        [mkFlag jc.id FlagType.OUTSIDE_MSD]
      else [] := by
  unfold msd_window_rule
  rw [hwo]
  dsimp only
  by_cases hcond : Date.lt jc.entry_date (windowStart wo.msd_month) ∨
      Date.lt (windowEnd wo.msd_month) jc.entry_date
  · rw [if_pos hcond, if_pos]
    intro hle
    rcases hcond with h | h
    · exact (date_lt_iff_not_le _ _).mp h hle.1
    · exact (date_lt_iff_not_le _ _).mp h hle.2
  · rw [if_neg hcond, if_neg]
    have h1 : ¬ Date.lt jc.entry_date (windowStart wo.msd_month) :=
      fun h => hcond (Or.inl h)
    have h2 : ¬ Date.lt (windowEnd wo.msd_month) jc.entry_date :=
      fun h => hcond (Or.inr h)
    have hle1 : Date.le (windowStart wo.msd_month) jc.entry_date := by
      by_contra hc
      exact h1 ((date_lt_iff_not_le _ _).mpr hc)
    have hle2 : Date.le jc.entry_date (windowEnd wo.msd_month) := by
      by_contra hc
      exact h2 ((date_lt_iff_not_le _ _).mpr hc)
    exact not_not_intro ⟨hle1, hle2⟩

/-- C5 witness: for msd_month 2024-11 the window is [2024-10-25,
2024-11-10]; both boundary dates produce no flag, and the dates just
outside on either side each produce one. -/
theorem c5_msd_window_witness :
    dbC5.findWorkOrder (mkEntryCard ⟨2024, 10, 25⟩).work_order_id = some woC5 ∧
    windowStart woC5.msd_month = ⟨2024, 10, 25⟩ ∧
    windowEnd woC5.msd_month = ⟨2024, 11, 10⟩ ∧
    msd_window_rule dbC5 (mkEntryCard ⟨2024, 10, 25⟩) = [] ∧
    msd_window_rule dbC5 (mkEntryCard ⟨2024, 11, 10⟩) = [] ∧
    msd_window_rule dbC5 (mkEntryCard ⟨2024, 10, 24⟩) =
      [mkFlag 1 FlagType.OUTSIDE_MSD] ∧
    msd_window_rule dbC5 (mkEntryCard ⟨2024, 11, 11⟩) =
      [mkFlag 1 FlagType.OUTSIDE_MSD] := by
  refine ⟨by decide, by decide, by decide, ?_, ?_, ?_, ?_⟩ <;>
    rw [c5_msd_window dbC5 _ woC5 (by decide)] <;> decide

/-- C6: for every (employee_id, period_start, period_end) key, the upsert
leaves exactly one EfficiencyPeriod row for that key — updating the single
existing row, collapsing accidental duplicates to the first one, or
inserting a fresh row — and leaves the rows of every other key untouched,
so recomputation overwrites and never appends. -/
theorem c6_upsert_unique_row (table : List EfficiencyPeriod) (employee_id : Int)
    (ps pe : Date) (data : EfficiencySnapshot) :
    ((upsert_efficiency_period table employee_id ps pe data).filter
        (periodKeyMatch employee_id ps pe)).length = 1 ∧
    (upsert_efficiency_period table employee_id ps pe data).filter
        (fun r => !periodKeyMatch employee_id ps pe r) =
      table.filter (fun r => !periodKeyMatch employee_id ps pe r) := by
  unfold upsert_efficiency_period
  by_cases h : table.any (periodKeyMatch employee_id ps pe) = true
  · rw [if_pos h]
    exact ⟨upsertGo_filter_key_length _ data
        (fun r => periodKeyMatch_updateRow employee_id ps pe r data) table h,
      upsertGo_filter_nonkey _ data
        (fun r => periodKeyMatch_updateRow employee_id ps pe r data) table⟩
  · rw [if_neg h]
    have hnil : table.filter (periodKeyMatch employee_id ps pe) = [] := by
      rw [List.filter_eq_nil_iff]
      intro r hr hkey
      exact h (List.any_eq_true.mpr ⟨r, hr, hkey⟩)
    constructor
    · rw [List.filter_append, hnil]
      simp [periodKeyMatch_newRow]
    · rw [List.filter_append]
      simp [periodKeyMatch_newRow]

/-- C7: compute_employee_efficiency always returns the individual
employee's snapshot and upserts exactly that snapshot; the team-average
capability is never substituted, whatever the individual's awc_pct. -/
theorem c7_individual_snapshot_returned (db : DB) (employee_id : Int) (ps pe : Date) :
    (compute_employee_efficiency db employee_id ps pe).1 =
      individual_snapshot db employee_id ps pe ∧
    (compute_employee_efficiency db employee_id ps pe).2.efficiencyPeriods =
      upsert_efficiency_period db.efficiencyPeriods employee_id ps pe
        (individual_snapshot db employee_id ps pe) :=
  ⟨rfl, rfl⟩

/-- C8: the time-efficiency denominator is floored at EPS = 1e-6, hence
positive for every input — the division is never by zero — and on the
zero-productive-hours database the stored and returned time_efficiency is
the finite value 0. -/
theorem c8_time_efficiency_denominator :
    (∀ (db : DB) (employee_id : Int) (ps pe : Date),
      0 < max (productive_hours (fetch_employee_jobcards db employee_id ps pe)) EPS ∧
      time_efficiency (fetch_employee_jobcards db employee_id ps pe) *
          max (productive_hours (fetch_employee_jobcards db employee_id ps pe)) EPS =
        standard_hours_allowed (fetch_employee_jobcards db employee_id ps pe) * 100) ∧
    productive_hours (fetch_employee_jobcards dbC8 1 ⟨2024, 11, 1⟩ ⟨2024, 11, 1⟩) = 0 ∧
    (compute_employee_efficiency dbC8 1 ⟨2024, 11, 1⟩ ⟨2024, 11, 1⟩).1.time_efficiency
      = 0 := by
  have hepspos : (0 : ℚ) < EPS := by norm_num [EPS]
  have hrows : fetch_employee_jobcards dbC8 1 ⟨2024, 11, 1⟩ ⟨2024, 11, 1⟩ =
      [(cardAwc, none)] := by decide
  have hstd : standard_hours_allowed [(cardAwc, none)] = 0 := by decide
  have hprod : productive_hours [(cardAwc, none)] = 0 := by decide
  have htime : time_efficiency [(cardAwc, none)] = 0 := by
    unfold time_efficiency
    rw [hstd]
    simp
  refine ⟨?_, ?_, ?_⟩
  · intro db employee_id ps pe
    have hpos : 0 < max (productive_hours (fetch_employee_jobcards db employee_id ps pe)) EPS :=
      lt_max_of_lt_right hepspos
    refine ⟨hpos, ?_⟩
    have hd : max (productive_hours (fetch_employee_jobcards db employee_id ps pe)) EPS ≠ 0 :=
      ne_of_gt hpos
    unfold time_efficiency
    field_simp
  · rw [hrows]
    exact hprod
  · show pyRound 2
        (time_efficiency (fetch_employee_jobcards dbC8 1 ⟨2024, 11, 1⟩ ⟨2024, 11, 1⟩)) = 0
    rw [hrows, htime]
    exact pyRound_of_mul_eq 2 0 0 (by norm_num)

/-- C4: quantity_efficiency is the mean of the per-card ratios times 100
whenever at least one QUANTITY_BASED card is in range — not a ratio of
aggregated sums — and the example card (std_qty_per_hour 10, qty 30,
2 hours) has per-card ratio 3/2, contributing 150% to the average. -/
theorem c4_quantity_efficiency_mean :
    (∀ (db : DB) (employee_id : Int) (ps pe : Date),
      0 < qty_eff_count (fetch_employee_jobcards db employee_id ps pe) →
      quantity_efficiency (fetch_employee_jobcards db employee_id ps pe) =
        qty_eff_sum (fetch_employee_jobcards db employee_id ps pe) /
          (qty_eff_count (fetch_employee_jobcards db employee_id ps pe) : ℚ) * 100) ∧
    qtyRatio rowQ = 3 / 2 ∧
    quantity_efficiency (fetch_employee_jobcards dbC4 1 ⟨2024, 11, 1⟩ ⟨2024, 11, 1⟩)
      = 150 := by
  have hratio : qtyRatio rowQ = 3 / 2 := by
    norm_num [qtyRatio, rowQ, cardQ, actC4, EPS, max_def]
  have hrows4 : fetch_employee_jobcards dbC4 1 ⟨2024, 11, 1⟩ ⟨2024, 11, 1⟩ =
      [(cardQ, some actC4)] := by decide
  have hfilter : [(cardQ, some actC4)].filter isQtyRow = [(cardQ, some actC4)] := by
    decide
  refine ⟨?_, hratio, ?_⟩
  · intro db employee_id ps pe h
    unfold quantity_efficiency
    rw [Nat.max_eq_left h]
  · rw [hrows4]
    unfold quantity_efficiency qty_eff_sum qty_eff_count
    rw [hfilter]
    have hsum : ([(cardQ, some actC4)].map qtyRatio).sum = 3 / 2 := by
      simp only [List.map_cons, List.map_nil, List.sum_cons, List.sum_nil]
      rw [show ((cardQ, some actC4) : JobCard × Option ActivityCode) = rowQ from rfl,
        hratio]
      norm_num
    rw [hsum]
    norm_num

/-- C4 witness: on dbC4 there is one QUANTITY_BASED card in range, the
mean formula applies, and the average evaluates to 150. -/
theorem c4_quantity_efficiency_mean_witness :
    0 < qty_eff_count (fetch_employee_jobcards dbC4 1 ⟨2024, 11, 1⟩ ⟨2024, 11, 1⟩) ∧
    quantity_efficiency (fetch_employee_jobcards dbC4 1 ⟨2024, 11, 1⟩ ⟨2024, 11, 1⟩) =
      qty_eff_sum (fetch_employee_jobcards dbC4 1 ⟨2024, 11, 1⟩ ⟨2024, 11, 1⟩) /
        (qty_eff_count (fetch_employee_jobcards dbC4 1 ⟨2024, 11, 1⟩ ⟨2024, 11, 1⟩) : ℚ) *
        100 :=
  ⟨by decide,
    c4_quantity_efficiency_mean.1 dbC4 1 ⟨2024, 11, 1⟩ ⟨2024, 11, 1⟩ (by decide)⟩

/-- C3: when the flagged cards of a work order form a single activity
group with positive total actual hours, every employee's accumulated
credit is total_std × (their actual hours / total_actual); on the concrete
work order (std 0.5, cards (qty 10, 5 h) and (qty 20, 15 h)) the service
returns credit_hours 11.25 and 3.75 with credit_pct 0.75 and 0.25, sorted
by credit descending. -/
theorem c3_split_allocation :
    (∀ (db : DB) (work_order_id a : Int),
      (∀ jc ∈ flagged_jobcards db work_order_id, jc.activity_code_id = some a) →
      0 < total_actual (groupOf db work_order_id a) →
      ∀ e : Int,
        employee_credit_sum db work_order_id e =
          total_std db (groupOf db work_order_id a) a *
            (employee_actual_sum db work_order_id e /
              total_actual (groupOf db work_order_id a))) ∧
    compute_splits_for_workorder dbC3 7 =
      [⟨2, 15, 45 / 4, 3 / 4⟩, ⟨1, 5, 15 / 4, 1 / 4⟩] := by
  constructor
  · intro db work_order_id a hall hpos e
    have hgroup : groupOf db work_order_id a = flagged_jobcards db work_order_id := by
      unfold groupOf
      rw [List.filter_eq_self]
      intro jc hjc
      rw [hall jc hjc]
      simp
    have hne : flagged_jobcards db work_order_id ≠ [] := by
      intro hnil
      rw [hgroup, hnil] at hpos
      simp [total_actual] at hpos
    have hkeys : activity_keys db work_order_id = [a] := by
      unfold activity_keys
      rw [filterMap_const_some _ _ a hall]
      exact firstOccur_replicate _ a (List.length_pos.mpr hne)
    have hproc : processed_cards db work_order_id = flagged_jobcards db work_order_id := by
      unfold processed_cards
      rw [hkeys]
      simp only [List.flatMap_cons, List.flatMap_nil, List.append_nil]
      rw [if_pos hpos, hgroup]
    have hcc : ∀ jc ∈ (flagged_jobcards db work_order_id).filter
        (fun jc => decide (jc.employee_id = some e)),
        cardCredit db work_order_id jc =
          total_std db (groupOf db work_order_id a) a /
            total_actual (groupOf db work_order_id a) * jc.actual_hours := by
      intro jc hjc
      have hmem : jc ∈ flagged_jobcards db work_order_id := List.mem_of_mem_filter hjc
      unfold cardCredit
      rw [hall jc hmem]
      ring
    unfold employee_credit_sum employee_actual_sum
    rw [hproc, List.map_congr_left hcc, List.sum_map_mul_left]
    ring
  · have hflag : flagged_jobcards dbC3 7 = [cardA, cardB] := by decide
    have hgroup3 : groupOf dbC3 7 30 = [cardA, cardB] := by decide
    have hkeys3 : activity_keys dbC3 7 = [30] := by decide
    have hta : total_actual (groupOf dbC3 7 30) = 20 := by
      rw [hgroup3]
      norm_num [total_actual, cardA, cardB]
    have hts : total_std dbC3 (groupOf dbC3 7 30) 30 = 15 := by
      rw [hgroup3]
      norm_num [total_std, std_per_unit, getActivity, dbC3, actC3, cardA, cardB,
        List.find?]
    have hproc3 : processed_cards dbC3 7 = [cardA, cardB] := by
      unfold processed_cards
      rw [hkeys3]
      simp only [List.flatMap_cons, List.flatMap_nil, List.append_nil]
      rw [hta, if_pos (by norm_num)]
      exact hgroup3
    have he_ids : employee_ids dbC3 7 = [1, 2] := by
      unfold employee_ids
      rw [hproc3]
      decide
    have hfilter1 : [cardA, cardB].filter (fun jc => decide (jc.employee_id = some 1)) =
        [cardA] := by decide
    have hfilter2 : [cardA, cardB].filter (fun jc => decide (jc.employee_id = some 2)) =
        [cardB] := by decide
    have hccA : cardCredit dbC3 7 cardA = 15 * (5 / 20) := by
      show total_std dbC3 (groupOf dbC3 7 30) 30 *
          (cardA.actual_hours / total_actual (groupOf dbC3 7 30)) = 15 * (5 / 20)
      rw [hts, hta]
      norm_num [cardA]
    have hccB : cardCredit dbC3 7 cardB = 15 * (15 / 20) := by
      show total_std dbC3 (groupOf dbC3 7 30) 30 *
          (cardB.actual_hours / total_actual (groupOf dbC3 7 30)) = 15 * (15 / 20)
      rw [hts, hta]
      norm_num [cardB]
    have hsum1 : employee_actual_sum dbC3 7 1 = 5 := by
      unfold employee_actual_sum
      rw [hproc3, hfilter1]
      norm_num [cardA]
    have hsum2 : employee_actual_sum dbC3 7 2 = 15 := by
      unfold employee_actual_sum
      rw [hproc3, hfilter2]
      norm_num [cardB]
    have hcred1 : employee_credit_sum dbC3 7 1 = 15 / 4 := by
      unfold employee_credit_sum
      rw [hproc3, hfilter1]
      simp [hccA]
      norm_num
    have hcred2 : employee_credit_sum dbC3 7 2 = 45 / 4 := by
      unfold employee_credit_sum
      rw [hproc3, hfilter2]
      simp [hccB]
      norm_num
    have hgrand : grand_total_actual dbC3 7 = 20 := by
      unfold grand_total_actual
      rw [he_ids]
      simp only [List.map_cons, List.map_nil, List.sum_cons, List.sum_nil]
      rw [hsum1, hsum2]
      norm_num
    have halloc : allocations_unsorted dbC3 7 =
        [⟨1, 5, 15 / 4, 1 / 4⟩, ⟨2, 15, 45 / 4, 3 / 4⟩] := by
      unfold allocations_unsorted
      rw [he_ids]
      simp only [List.map_cons, List.map_nil]
      rw [hsum1, hsum2, hcred1, hcred2, hgrand]
      rw [if_pos (by norm_num : (20 : ℚ) ≠ 0), if_pos (by norm_num : (20 : ℚ) ≠ 0)]
      rw [pyRound_of_mul_eq 4 5 50000 (by norm_num),
        pyRound_of_mul_eq 4 15 150000 (by norm_num),
        pyRound_of_mul_eq 4 (15 / 4) 37500 (by norm_num),
        pyRound_of_mul_eq 4 (45 / 4) 112500 (by norm_num),
        pyRound_of_mul_eq 6 (5 / 20) 250000 (by norm_num),
        pyRound_of_mul_eq 6 (15 / 20) 750000 (by norm_num)]
      norm_num
    unfold compute_splits_for_workorder
    rw [if_neg (by rw [hflag]; simp), halloc]
    simp [List.mergeSort]
    norm_num

/-- C3 witness: on dbC3 the flagged cards form the single activity group
30 with positive total actual hours, and the credit formula instantiates
for employee 1. -/
theorem c3_split_allocation_witness :
    ((flagged_jobcards dbC3 7).all
        fun jc => decide (jc.activity_code_id = some 30)) = true ∧
    0 < total_actual (groupOf dbC3 7 30) ∧
    employee_credit_sum dbC3 7 1 =
      total_std dbC3 (groupOf dbC3 7 30) 30 *
        (employee_actual_sum dbC3 7 1 / total_actual (groupOf dbC3 7 30)) := by
  have h2 : 0 < total_actual (groupOf dbC3 7 30) := by
    have hg : groupOf dbC3 7 30 = [cardA, cardB] := by decide
    rw [hg]
    norm_num [total_actual, cardA, cardB]
  exact ⟨by decide, h2, c3_split_allocation.1 dbC3 7 30 (by decide) h2 1⟩

/-- C9: a job card carrying k unresolved SPLIT_CANDIDATE flags enters the
join result k times, so its hours and qty enter the group totals k times
and its employee's accumulated actual hours and credit are k times the
single-flag values (hrs and q·std respectively) — the flag join is not
deduplicated before grouping. -/
theorem c9_duplicate_flag_inflation (k : ℕ) (hrs q std : ℚ)
    (hk : 0 < k) (hh : 0 < hrs) :
    flagged_jobcards (c9DB k hrs q std) 7 = List.replicate k (c9Card hrs q) ∧
    total_actual (groupOf (c9DB k hrs q std) 7 30) = k * hrs ∧
    total_std (c9DB k hrs q std) (groupOf (c9DB k hrs q std) 7 30) 30 =
      k * (q * std) ∧
    employee_actual_sum (c9DB k hrs q std) 7 1 = k * hrs ∧
    employee_credit_sum (c9DB k hrs q std) 7 1 = k * (q * std) := by
  have hkq : ((k : ℚ)) ≠ 0 := by
    exact_mod_cast Nat.pos_iff_ne_zero.mp hk
  have hflag : flagged_jobcards (c9DB k hrs q std) 7 =
      List.replicate k (c9Card hrs q) := by
    unfold flagged_jobcards c9DB jc_unresolved_split_flags
    simp [optEqI, c9Card, List.filter_replicate, List.map_replicate]
  have hgroup : groupOf (c9DB k hrs q std) 7 30 = List.replicate k (c9Card hrs q) := by
    unfold groupOf
    rw [hflag]
    simp [List.filter_replicate, c9Card]
  have hta : total_actual (groupOf (c9DB k hrs q std) 7 30) = k * hrs := by
    unfold total_actual
    rw [hgroup, List.map_replicate, List.sum_replicate]
    simp [c9Card, nsmul_eq_mul]
  have hts : total_std (c9DB k hrs q std) (groupOf (c9DB k hrs q std) 7 30) 30 =
      k * (q * std) := by
    unfold total_std std_per_unit getActivity
    rw [hgroup, List.map_replicate, List.sum_replicate]
    simp [c9DB, c9Act, c9Card, List.find?, nsmul_eq_mul]
  have hkeys : activity_keys (c9DB k hrs q std) 7 = [30] := by
    unfold activity_keys
    rw [hflag, filterMap_const_some _ _ 30 (by
      intro x hx
      rw [List.eq_of_mem_replicate hx]
      rfl)]
    rw [List.length_replicate]
    exact firstOccur_replicate k 30 hk
  have hkhpos : (0 : ℚ) < k * hrs := by
    apply mul_pos _ hh
    exact_mod_cast hk
  have hproc : processed_cards (c9DB k hrs q std) 7 =
      List.replicate k (c9Card hrs q) := by
    unfold processed_cards
    rw [hkeys]
    simp only [List.flatMap_cons, List.flatMap_nil, List.append_nil]
    rw [hta, if_pos hkhpos]
    exact hgroup
  have hfilter : (List.replicate k (c9Card hrs q)).filter
      (fun jc => decide (jc.employee_id = some 1)) =
      List.replicate k (c9Card hrs q) := by
    simp [List.filter_replicate, c9Card]
  have hsum : employee_actual_sum (c9DB k hrs q std) 7 1 = k * hrs := by
    unfold employee_actual_sum
    rw [hproc, hfilter, List.map_replicate, List.sum_replicate]
    simp [c9Card, nsmul_eq_mul]
  have hcc : cardCredit (c9DB k hrs q std) 7 (c9Card hrs q) = q * std := by
    show total_std (c9DB k hrs q std) (groupOf (c9DB k hrs q std) 7 30) 30 *
        ((c9Card hrs q).actual_hours / total_actual (groupOf (c9DB k hrs q std) 7 30)) =
      q * std
    rw [hts, hta]
    have hch : (c9Card hrs q).actual_hours = hrs := rfl
    rw [hch]
    field_simp
    ring
  have hcred : employee_credit_sum (c9DB k hrs q std) 7 1 = k * (q * std) := by
    unfold employee_credit_sum
    rw [hproc, hfilter, List.map_replicate, hcc, List.sum_replicate]
    simp [nsmul_eq_mul]
  exact ⟨hflag, hta, hts, hsum, hcred⟩

/-- C9 witness: with k = 2 flags on a card of 5 hours, qty 10 and
std 0.5, the employee's accumulated hours are 10 and the credit is 10 —
twice the single-flag values 5 and 5. -/
theorem c9_duplicate_flag_inflation_witness :
    0 < (2 : ℕ) ∧ (0 : ℚ) < 5 ∧
    employee_actual_sum (c9DB 2 5 10 (1 / 2)) 7 1 = 10 ∧
    employee_credit_sum (c9DB 2 5 10 (1 / 2)) 7 1 = 10 := by
  have h := c9_duplicate_flag_inflation 2 5 10 (1 / 2) (by norm_num) (by norm_num)
  refine ⟨by norm_num, by norm_num, ?_, ?_⟩
  · rw [h.2.2.2.1]
    norm_num
  · rw [h.2.2.2.2]
    norm_num

/-- C10: the returned task_efficiency is exactly 100 when some TASK_BASED
card falls in the period and exactly 0 otherwise, because tasks_planned is
max(tasks_completed, 1). -/
theorem c10_task_efficiency_binary (db : DB) (employee_id : Int) (ps pe : Date) :
    (compute_employee_efficiency db employee_id ps pe).1.task_efficiency =
      if 0 < tasks_completed (fetch_employee_jobcards db employee_id ps pe) then
        (100 : ℚ)
      else 0 := by
  have hfst : (compute_employee_efficiency db employee_id ps pe).1.task_efficiency
      = pyRound 2 (task_efficiency (fetch_employee_jobcards db employee_id ps pe)) := rfl
  rw [hfst]
  set rows := fetch_employee_jobcards db employee_id ps pe with hrows
  by_cases h : 0 < tasks_completed rows
  · rw [if_pos h]
    have h1 : (max (tasks_planned rows) 1 : ℕ) = tasks_completed rows := by
      unfold tasks_planned
      omega
    unfold task_efficiency
    rw [h1]
    have hne : ((tasks_completed rows : ℚ)) ≠ 0 := by
      exact_mod_cast Nat.pos_iff_ne_zero.mp h
    rw [div_self hne, one_mul]
    exact pyRound_of_mul_eq 2 100 10000 (by norm_num)
  · rw [if_neg h]
    have h0 : tasks_completed rows = 0 := by omega
    unfold task_efficiency
    rw [h0]
    have hz : ((0 : ℕ) : ℚ) / ((max (tasks_planned rows) 1 : ℕ) : ℚ) * 100 = 0 := by
      simp
    rw [hz]
    exact pyRound_of_mul_eq 2 0 0 (by norm_num)
